import Mathlib

/-!
Verification of the bbg_api response-decoding engine (src/bbg.py).

The Python source is shallowly embedded: Python dicts become insertion-ordered
association lists (`Dict`), Python scalar values become `SVal`, blpapi wire
elements become `Element`, and raised exceptions become `Except PyExc`.
-/

set_option maxHeartbeats 1000000

namespace Bbg

/-- Python scalar values appearing in this code base: ints, strings, booleans,
dates/datetimes/times (only the fields the code's strftime calls read), and
Python's `None`. -/
inductive SVal where
  | i (n : Int)
  | s (v : String)
  | b (v : Bool)
  | date (y m d : Nat)
  | datetime (y m d hh mi ss : Nat)
  | time (hh mi ss : Nat)
  | none
deriving DecidableEq, Repr

/-- A Python value as stored in the decoded result structures: either a scalar
or a dict (insertion-ordered association list; keys are Python values — the
code keys dicts by strings, dates and datetimes). -/
inductive BVal where
  | sv (v : SVal)
  | dict (entries : List (SVal × BVal))

/-- Insertion-ordered Python dict. -/
abbrev Dict := List (SVal × BVal)

/-- Python `k in d`. -/
def dictHasKey : Dict → SVal → Bool
  | [], _ => false
  | (k0, _) :: rest, k => if k0 = k then true else dictHasKey rest k

/-- Python `d[k]` as an Option (None = KeyError). -/
def dictGet : Dict → SVal → Option BVal
  | [], _ => Option.none
  | (k0, v0) :: rest, k => if k0 = k then some v0 else dictGet rest k

/-- Python `d[k] = v`: replace in place (keeping insertion position) or append. -/
def dictSet : Dict → SVal → BVal → Dict
  | [], k, v => [(k, v)]
  | (k0, v0) :: rest, k, v => if k0 = k then (k0, v) :: rest else (k0, v0) :: dictSet rest k v

/-- Python `d.setdefault(k, v)`: insert only when the key is absent. -/
def dictSetdefault (d : Dict) (k : SVal) (v : BVal) : Dict :=
  if dictHasKey d k then d else d ++ [(k, v)]

/-- `SessionFactory._merge_two_dicts` (src/bbg.py lines 406-410):
`z = x.copy(); z.update(y)` — a shallow merge where keys of `y` overwrite
same-named keys of `x`. -/
def mergeTwoDicts (x y : Dict) : Dict :=
  y.foldl (fun acc p => dictSet acc p.1 p.2) x

/-- Python exceptions raised by this code base. -/
inductive PyExc where
  | typeError
  | keyError
  | attributeError
  | assertionError
  | notFound          -- blpapi.NotFoundException
  | unknownError      -- blpapi.UnknownErrorException
  | connectionFailed  -- bbg.ConnectionFailed
deriving DecidableEq, Repr

/-- blpapi scalar data kinds used in `DataTypeFactory` / `BBG_SEQUENCES`. -/
inductive DType where
  | BOOL | BYTE | BYTEARRAY | CHAR | CORRELATION_ID | DATE | DATETIME | DECIMAL
  | ENUMERATION | FLOAT32 | FLOAT64 | INT32 | INT64 | STRING | TIME
  | SEQUENCE | CHOICE
deriving DecidableEq, Repr

/-- `BBG_SEQUENCES = [DataType.SEQUENCE, DataType.BYTEARRAY, DataType.CHOICE]`
(src/bbg.py line 21). -/
def bbgSequences : List DType := [DType.SEQUENCE, DType.BYTEARRAY, DType.CHOICE]

/-- A blpapi wire element: a name, a declared data kind, and either a scalar
value, an ordered sequence of values (array semantics), or named children
(complex-record semantics). -/
inductive Element where
  | scalarE (name : String) (dtype : DType) (v : SVal)
  | arrayE (name : String) (dtype : DType) (items : List Element)
  | complexE (name : String) (dtype : DType) (children : List Element)

/-- `element.name()`. -/
def Element.name : Element → String
  | .scalarE n _ _ => n
  | .arrayE n _ _ => n
  | .complexE n _ _ => n

/-- `element.datatype()`. -/
def Element.datatype : Element → DType
  | .scalarE _ d _ => d
  | .arrayE _ d _ => d
  | .complexE _ d _ => d

/-- `element.getValue()`: the scalar payload; raises on a non-scalar element. -/
def Element.getValue : Element → Except PyExc SVal
  | .scalarE _ _ v => .ok v
  | _ => .error .typeError

/-- `element.getElement(name)` on a complex element: the first child with that
name, `Option.none` when absent (blpapi raises `NotFoundException` there;
callers of this function map `Option.none` to the exception they observe). -/
def Element.getElement : Element → String → Option Element
  | .complexE _ _ cs, n => cs.find? (fun c => c.name = n)
  | _, _ => Option.none

/-- `element.hasElement(name)`. -/
def Element.hasElement (e : Element) (n : String) : Bool :=
  (e.getElement n).isSome

/-- `element.getElementAsString(name)`: fetch the named child and render its
scalar value as a string (the code only applies it to string-valued fields). -/
def Element.getElementAsString (e : Element) (n : String) : Except PyExc String :=
  match e.getElement n with
  | Option.none => .error .notFound
  | some c =>
    match c.getValue with
    | .error err => .error err
    | .ok (SVal.s v) => .ok v
    | .ok _ => .error .typeError

/-- `SessionFactory._get_bbg_iterator` (src/bbg.py lines 394-398): `values()`
for an array, `elements()` for a complex type, Python `None` (here
`Option.none`) for a scalar — iterating that `None` raises `TypeError`. -/
def getBbgIterator : Element → Option (List Element)
  | .arrayE _ _ xs => some xs
  | .complexE _ _ xs => some xs
  | .scalarE _ _ _ => Option.none

/-- `SessionFactory._get_iterator_len` (src/bbg.py lines 400-404): `numValues()`
for an array, `numElements()` for a complex type, Python `None` for a scalar. -/
def getIteratorLen : Element → Option Nat
  | .arrayE _ _ xs => some xs.length
  | .complexE _ _ xs => some xs.length
  | .scalarE _ _ _ => Option.none

/-- Left-pad the decimal rendering of `n` with zeros to width `w`, the
behaviour of CPython's `strftime` padding directives. -/
def zpad (w : Nat) (n : Nat) : String :=
  let s := toString n
  String.mk (List.replicate (w - s.length) '0') ++ s

/-- A scalar handler's outcome: the `[name, value]` pair, or the
`NotImplementedError` class object that `process_correlation_id` /
`process_enumeration` return (note: return, not raise). -/
inductive ProcVal where
  | pair (name : String) (value : SVal)
  | notImplClass
deriving Repr

/-- `DataTypeFactory.process_bool` and the other pass-through handlers
(`process_byte`, `process_byte_array`, `process_char`, `process_string`,
`process_scalar`): `[str(data.name()), data.getValue()]`. -/
def DataTypeFactory.processPassThrough (data : Element) : Except PyExc ProcVal :=
  match data.getValue with
  | .error e => .error e
  | .ok v => .ok (.pair data.name v)

/-- `DataTypeFactory.process_date`: `data.getValue().strftime('%Y-%m-%d')`;
a non-date value has no `strftime` and raises `AttributeError`. -/
def DataTypeFactory.processDate (data : Element) : Except PyExc ProcVal :=
  match data.getValue with
  | .error e => .error e
  | .ok (SVal.date y m d) =>
      .ok (.pair data.name (.s (zpad 4 y ++ "-" ++ zpad 2 m ++ "-" ++ zpad 2 d)))
  | .ok (SVal.datetime y m d _ _ _) =>
      .ok (.pair data.name (.s (zpad 4 y ++ "-" ++ zpad 2 m ++ "-" ++ zpad 2 d)))
  | .ok _ => .error .attributeError

/-- `DataTypeFactory.process_date_time`: `strftime('%Y-%m-%d %H:%M:%S')`. -/
def DataTypeFactory.processDateTime (data : Element) : Except PyExc ProcVal :=
  match data.getValue with
  | .error e => .error e
  | .ok (SVal.datetime y m d hh mi ss) =>
      .ok (.pair data.name (.s (zpad 4 y ++ "-" ++ zpad 2 m ++ "-" ++ zpad 2 d ++ " "
        ++ zpad 2 hh ++ ":" ++ zpad 2 mi ++ ":" ++ zpad 2 ss)))
  | .ok _ => .error .attributeError

/-- `DataTypeFactory.process_time`: `strftime('%H:%M:%S')`. -/
def DataTypeFactory.processTime (data : Element) : Except PyExc ProcVal :=
  match data.getValue with
  | .error e => .error e
  | .ok (SVal.time hh mi ss) =>
      .ok (.pair data.name (.s (zpad 2 hh ++ ":" ++ zpad 2 mi ++ ":" ++ zpad 2 ss)))
  | .ok (SVal.datetime _ _ _ hh mi ss) =>
      .ok (.pair data.name (.s (zpad 2 hh ++ ":" ++ zpad 2 mi ++ ":" ++ zpad 2 ss)))
  | .ok _ => .error .attributeError

/-- `DataTypeFactory.process_correlation_id` (src/bbg.py lines 442-443):
`return NotImplementedError` — the exception CLASS is returned as the handler's
result, not raised. -/
def DataTypeFactory.processCorrelationId (_ : Element) : Except PyExc ProcVal :=
  .ok .notImplClass

/-- `DataTypeFactory.process_enumeration` (src/bbg.py lines 451-452): likewise
returns the `NotImplementedError` class. -/
def DataTypeFactory.processEnumeration (_ : Element) : Except PyExc ProcVal :=
  .ok .notImplClass

/-- The `process_factory` dispatch table of `SessionFactory._field_factory`
(src/bbg.py lines 373-387). `Option.none` models a data kind absent from the
table (`dict.get` returns `None`). -/
def processFactory : DType → Option (Element → Except PyExc ProcVal)
  | .BOOL => some DataTypeFactory.processPassThrough
  | .BYTE => some DataTypeFactory.processPassThrough
  | .BYTEARRAY => some DataTypeFactory.processPassThrough
  | .CHAR => some DataTypeFactory.processPassThrough
  | .CORRELATION_ID => some DataTypeFactory.processCorrelationId
  | .DATE => some DataTypeFactory.processDate
  | .DATETIME => some DataTypeFactory.processDateTime
  | .DECIMAL => some DataTypeFactory.processPassThrough
  | .ENUMERATION => some DataTypeFactory.processEnumeration
  | .FLOAT32 => some DataTypeFactory.processPassThrough
  | .FLOAT64 => some DataTypeFactory.processPassThrough
  | .INT32 => some DataTypeFactory.processPassThrough
  | .INT64 => some DataTypeFactory.processPassThrough
  | .STRING => some DataTypeFactory.processPassThrough
  | .TIME => some DataTypeFactory.processTime
  | .SEQUENCE => Option.none
  | .CHOICE => Option.none

/-- `SessionFactory._field_factory` (src/bbg.py lines 367-392):
`process_factory.get(dtype)(data)` followed by `[r[0], r[1]]`.
A data kind missing from the table makes `None(data)` raise `TypeError`;
a handler that returned the `NotImplementedError` class makes `r[0]`
(subscripting a class) raise `TypeError`. -/
def fieldFactory (data : Element) : Except PyExc (String × SVal) :=
  match processFactory data.datatype with
  | Option.none => .error .typeError
  | some handler =>
    match handler data with
    | .error e => .error e
    | .ok (.pair n v) => .ok (n, v)
    | .ok .notImplClass => .error .typeError

/-- The tail of `_element_factory`'s composite branch: after the children have
been decoded into the sub-dict, store it in the caller's dict under `key`
(`results[element_name] = {}` filled by the recursion), propagating any
exception from the recursion. -/
def elementFactoryStep (results : Dict) (key : String)
    (res : Except PyExc (List String × Dict)) : Except PyExc (List String × Dict) :=
  match res with
  | .error e => .error e
  | .ok (dF, sub) => .ok (dF, dictSet results (.s key) (.dict sub))

/-- The tail of `_element_factory`'s scalar branch:
`results[single_value[0]] = single_value[1]`, propagating any exception from
`_field_factory`. -/
def scalarAssign (dups : List String) (results : Dict)
    (res : Except PyExc (String × SVal)) : Except PyExc (List String × Dict) :=
  match res with
  | .error e => .error e
  | .ok (nm, v) => .ok (dups, dictSet results (.s nm) (.sv v))

mutual

/-- `SessionFactory._element_factory` (src/bbg.py lines 337-365) with the
in-place dict mutation made explicit: `dups` is the shared
`duplicate_elements` list and `results` the dict being filled. For a
composite data kind (`BBG_SEQUENCES`) the element's name keys a fresh
sub-dict — renamed to `name_len(dups)` (with the new name appended to the
duplicate registry) when `name` is already a key at this level — and every
child is decoded into that sub-dict; a scalar element is decoded by
`_field_factory` and assigned under its name (overwriting any same-named
entry). A composite-kind element with no iterator (`None` from
`_get_bbg_iterator`) raises `TypeError` at the `for`. -/
def elementFactory (el : Element) (dups : List String) (results : Dict) :
    Except PyExc (List String × Dict) :=
  if el.datatype ∈ bbgSequences then
    let key := if dictHasKey results (.s el.name)
      then el.name ++ "_" ++ toString dups.length else el.name
    let dups1 := if dictHasKey results (.s el.name)
      then dups ++ [el.name ++ "_" ++ toString dups.length] else dups
    match el with
    | .scalarE _ _ _ => .error .typeError
    | .arrayE _ _ cs | .complexE _ _ cs =>
      elementFactoryStep results key (elementFactoryList cs dups1 [])
  else
    scalarAssign dups results (fieldFactory el)

/-- The `for sub_element in self._get_bbg_iterator(element)` loop of
`_element_factory`, decoding each child in turn into the shared sub-dict. -/
def elementFactoryList (cs : List Element) (dups : List String) (sub : Dict) :
    Except PyExc (List String × Dict) :=
  match cs with
  | [] => .ok (dups, sub)
  | c :: rest =>
    match elementFactory c dups sub with
    | .error e => .error e
    | .ok (d1, s1) => elementFactoryList rest d1 s1

end

/-- The top-level call shape `self._element_factory(field_data, [])`
(src/bbg.py line 232): `results` defaults to Python `None`; the composite
branch replaces it with `{}`, while the scalar branch reaches
`None[name] = value` and raises `TypeError` (after `_field_factory` ran and
had its chance to raise first). -/
def elementFactoryTop (el : Element) : Except PyExc Dict :=
  if el.datatype ∈ bbgSequences then
    match elementFactory el [] [] with
    | .error e => .error e
    | .ok (_, r) => .ok r
  else
    match fieldFactory el with
    | .error e => .error e
    | .ok _ => .error .typeError

/-- `SessionFactory._flatten_dict` (src/bbg.py lines 412-423). A non-dict and
a dict with more than one key are returned unchanged; the empty dict falls
through its `for` loop and returns Python `None`; in a one-key dict, a value
that is itself a one-key dict is returned, any other value is recursed into. -/
def flattenDict : BVal → BVal
  | .sv v => .sv v
  | .dict [] => .sv SVal.none
  | .dict [(_, v)] =>
    match v with
    | .dict [kv2] => .dict [kv2]
    | _ => flattenDict v
  | .dict (a :: b :: rest) => .dict (a :: b :: rest)

/-- The accumulation loop of `_response_error_factory`:
`response_errors[str(e.name())] = e.getValue()`. -/
def responseErrorLoop (items : List Element) (acc : Dict) : Except PyExc Dict :=
  match items with
  | [] => .ok acc
  | e :: rest =>
    match e.getValue with
    | .error err => .error err
    | .ok v => responseErrorLoop rest (dictSet acc (.s e.name) (.sv v))

/-- `SessionFactory._response_error_factory` (src/bbg.py lines 311-317). -/
def responseErrorFactory (responseArray : Element) : Except PyExc Dict :=
  match getBbgIterator responseArray with
  | Option.none => .error .typeError
  | some items => responseErrorLoop items []

/-- `SessionFactory._security_error_factory` (src/bbg.py lines 329-335): the
same per-entry shape as `_response_error_factory`. -/
def securityErrorFactory (securityError : Element) : Except PyExc Dict :=
  match getBbgIterator securityError with
  | Option.none => .error .typeError
  | some items => responseErrorLoop items []

/-- The accumulation loop of `_field_exception_factory`. -/
def fieldExceptionLoop (items : List Element) (acc : Dict) : Except PyExc Dict :=
  match items with
  | [] => .ok acc
  | fexc :: rest =>
    match fexc.getElement "errorInfo" with
    | Option.none => .error .notFound
    | some errorInfo =>
      match errorInfo.getElementAsString "category" with
      | .error e => .error e
      | .ok cat =>
        match fexc.getElementAsString "fieldId" with
        | .error e => .error e
        | .ok fid => fieldExceptionLoop rest (dictSet acc (.s cat) (.sv (.s fid)))

/-- `SessionFactory._field_exception_factory` (src/bbg.py lines 319-327):
`fe[error_info.getElementAsString(CATEGORY)] = fexc.getElementAsString(FIELD_ID)`. -/
def fieldExceptionFactory (fieldExceptionArray : Element) : Except PyExc Dict :=
  match getBbgIterator fieldExceptionArray with
  | Option.none => .error .typeError
  | some items => fieldExceptionLoop items []

/-- `str(value)` as applied to the values this code passes to `str` (the
security field, normally a string already). -/
def pyStr : SVal → String
  | .s v => v
  | .i n => toString n
  | .b true => "True"
  | .b false => "False"
  | .date y m d => zpad 4 y ++ "-" ++ zpad 2 m ++ "-" ++ zpad 2 d
  | .datetime y m d hh mi ss =>
      zpad 4 y ++ "-" ++ zpad 2 m ++ "-" ++ zpad 2 d ++ " "
        ++ zpad 2 hh ++ ":" ++ zpad 2 mi ++ ":" ++ zpad 2 ss
  | .time hh mi ss => zpad 2 hh ++ ":" ++ zpad 2 mi ++ ":" ++ zpad 2 ss
  | SVal.none => "None"

/-- One provider message: its top-level named elements. `hasElement` /
`getElement` behave as on a complex element. -/
structure Msg where
  elements : List Element

/-- `msg.getElement(name)`. -/
def Msg.getElement (m : Msg) (n : String) : Option Element :=
  m.elements.find? (fun c => c.name = n)

/-- `msg.hasElement(name)`. -/
def Msg.hasElement (m : Msg) (n : String) : Bool :=
  (m.getElement n).isSome

/-- The per-tick inner loop of `_process_intraday_data_msg` (src/bbg.py lines
191-192): `data.setdefault(str(element.name()), element.getValue())` over the
tick's elements. -/
def intradayTickFields (elems : List Element) (data : Dict) : Except PyExc Dict :=
  match elems with
  | [] => .ok data
  | e :: rest =>
    match e.getValue with
    | .error err => .error err
    | .ok v => intradayTickFields rest (dictSetdefault data (.s e.name) (.sv v))

/-- The bar-tick loop of `_process_intraday_data_msg` (src/bbg.py lines
187-194): each tick's elements fold into a flat record, stored under the
tick's `time` value (`data['time']` raises `KeyError` when absent). -/
def intradayBarLoop (ticks : List Element) (results : Dict) : Except PyExc Dict :=
  match ticks with
  | [] => .ok results
  | tick :: rest =>
    match getBbgIterator tick with
    | Option.none => .error .typeError
    | some elems =>
      match intradayTickFields elems [] with
      | .error e => .error e
      | .ok data =>
        match dictGet data (.s "time") with
        | Option.none => .error .keyError
        | some t =>
          match t with
          | .sv tv => intradayBarLoop rest (dictSet results tv (.dict data))
          | .dict _ => .error .typeError

/-- `SessionFactory._process_intraday_data_msg` (src/bbg.py lines 174-196).
`.values()` is called directly on the `barTickData` element, so a non-array
there raises; each tick keys the results by its `time` value. -/
def processIntradayDataMsg (msg : Msg) : Except PyExc (Option String × BVal) :=
  match msg.getElement "responseError" with
  | some re =>
    match responseErrorFactory re with
    | .error e => .error e
    | .ok d => .ok (Option.none, .dict d)
  | Option.none =>
    match msg.getElement "barData" with
    | Option.none => .error .notFound
    | some barData =>
      match barData.getElement "barTickData" with
      | Option.none => .error .notFound
      | some btd =>
        match btd with
        | .arrayE _ _ ticks =>
          match intradayBarLoop ticks [] with
          | .error e => .error e
          | .ok results => .ok (Option.none, .dict results)
        | _ => .error .typeError

/-- The per-security record built in the body of `_process_ref_data_msg`'s
loop (src/bbg.py lines 225-251): security id, decoded-and-flattened field
data, security errors, field exceptions — assembled in the literal key order
`security_data`, `field_exceptions`, `security_errors`. -/
def refItemRecord (item : Element) : Except PyExc (String × Dict) :=
  match item.getElementAsString "security" with
  | .error e => .error e
  | .ok security =>
    match item.getElement "fieldData" with
    | Option.none => .error .notFound
    | some fieldData =>
      match getIteratorLen fieldData with
      | Option.none => .error .typeError
      | some fdLen =>
        let sdrE : Except PyExc BVal :=
          if fdLen > 0 then
            match elementFactoryTop fieldData with
            | .error e => .error e
            | .ok d => .ok (flattenDict (.dict d))
          else .ok (.dict [])
        match sdrE with
        | .error e => .error e
        | .ok sdr =>
          let seE : Except PyExc Dict :=
            match item.getElement "securityError" with
            | some se => securityErrorFactory se
            | Option.none => .ok []
          match seE with
          | .error e => .error e
          | .ok secErrors =>
            match item.getElement "fieldExceptions" with
            | Option.none => .error .notFound
            | some feEl =>
              match getIteratorLen feEl with
              | Option.none => .error .typeError
              | some feLen =>
                let feE : Except PyExc Dict :=
                  if feLen > 0 then fieldExceptionFactory feEl else .ok []
                match feE with
                | .error e => .error e
                | .ok fexc =>
                  .ok (security,
                    [(.s "security_data", sdr),
                     (.s "field_exceptions", .dict fexc),
                     (.s "security_errors", .dict secErrors)])

/-- The security loop of `_process_ref_data_msg` (src/bbg.py lines 225-251):
with more than one security the record is stored under the security id;
with at most one the record replaces `results` wholesale. The running
`security` variable keeps the last item's id. -/
def refLoop (items : List Element) (totalLen : Nat) (security : Option String)
    (results : Dict) : Except PyExc (Option String × Dict) :=
  match items with
  | [] => .ok (security, results)
  | item :: rest =>
    match refItemRecord item with
    | .error e => .error e
    | .ok (sec, rec) =>
      let results1 := if totalLen > 1 then dictSet results (.s sec) (.dict rec) else rec
      refLoop rest totalLen (some sec) results1

/-- `SessionFactory._process_ref_data_msg` (src/bbg.py lines 198-256). -/
def processRefDataMsg (msg : Msg) : Except PyExc (Option String × BVal) :=
  match msg.getElement "responseError" with
  | some re =>
    match responseErrorFactory re with
    | .error e => .error e
    | .ok d => .ok (Option.none, .dict d)
  | Option.none =>
    match msg.getElement "securityData" with
    | Option.none => .error .notFound
    | some securityData =>
      match getBbgIterator securityData, getIteratorLen securityData with
      | some items, some len =>
        match refLoop items len Option.none [] with
        | .error e => .error e
        | .ok (sec, results) =>
          if len > 1 then .ok (Option.none, .dict results) else .ok (sec, .dict results)
      | _, _ => .error .typeError

/-- The inner element fold of `_process_historical_data_msg`'s field-data loop
(src/bbg.py lines 293-301): the `date` element names the row and seeds
`security_data_results` via `setdefault`; every other element lands in the
row's `item_data`. -/
def histItemFields (elems : List Element) (itemData : Dict) (date : Option SVal)
    (results : Dict) : Except PyExc (Dict × Option SVal × Dict) :=
  match elems with
  | [] => .ok (itemData, date, results)
  | e :: rest =>
    match e.getValue with
    | .error err => .error err
    | .ok v =>
      if e.name = "date" then
        histItemFields rest itemData (some v) (dictSetdefault results v (.dict []))
      else
        histItemFields rest (dictSet itemData (.s e.name) (.sv v)) date results

/-- The field-data loop of `_process_historical_data_msg` (src/bbg.py lines
289-303): after each row's elements are folded, `results[date] = item_data`
(a missing `date` element leaves `date = None`, which then keys the row). -/
def histFieldLoop (items : List Element) (results : Dict) : Except PyExc Dict :=
  match items with
  | [] => .ok results
  | item :: rest =>
    match getBbgIterator item with
    | Option.none => .error .typeError
    | some elems =>
      match histItemFields elems [] Option.none results with
      | .error e => .error e
      | .ok (itemData, date, results1) =>
        histFieldLoop rest (dictSet results1 (date.getD SVal.none) (.dict itemData))

/-- `SessionFactory._process_historical_data_msg` (src/bbg.py lines 258-309). -/
def processHistoricalDataMsg (msg : Msg) : Except PyExc (Option String × BVal) :=
  match msg.getElement "responseError" with
  | some re =>
    match responseErrorFactory re with
    | .error e => .error e
    | .ok d => .ok (Option.none, .dict d)
  | Option.none =>
    match msg.getElement "securityData" with
    | Option.none => .error .notFound
    | some securityData =>
      match securityData.getElement "security" with
      | Option.none => .error .notFound
      | some secEl =>
        match secEl.getValue with
        | .error e => .error e
        | .ok secVal =>
          let security := pyStr secVal
          match securityData.getElement "securityError" with
          | some se =>
            match securityErrorFactory se with
            | .error e => .error e
            | .ok errs =>
              .ok (some security,
                .dict [(.s "security_errors", .dict errs),
                       (.s "security_data", .dict []),
                       (.s "field_exceptions", .dict [])])
          | Option.none =>
            let feE : Except PyExc Dict :=
              match securityData.getElement "fieldExceptions" with
              | some feEl => fieldExceptionFactory feEl
              | Option.none => .ok []
            match feE with
            | .error e => .error e
            | .ok fexc =>
              match securityData.getElement "fieldData" with
              | Option.none => .error .notFound
              | some fieldData =>
                match getIteratorLen fieldData with
                | Option.none => .error .typeError
                | some fdLen =>
                  let sdrE : Except PyExc Dict :=
                    if fdLen > 0 then
                      match getBbgIterator fieldData with
                      | Option.none => .error .typeError
                      | some items => histFieldLoop items []
                    else .ok []
                  match sdrE with
                  | .error e => .error e
                  | .ok sdr =>
                    .ok (some security,
                      .dict [(.s "security_data", .dict sdr),
                             (.s "security_errors", .dict []),
                             (.s "field_exceptions", .dict fexc)])

/-- One message as seen by the accumulator loop of
`SessionFactory.process_session` (src/bbg.py lines 135-169): whether the
expected correlation id is among `msg.correlationIds()`, the
`(security, sec_results)` pair produced by the dispatched message decoder,
and `str(msg.messageType())`. -/
structure SFMsg where
  cidMatches : Bool
  security : Option String
  fragment : Dict
  responseType : String

/-- `security_responses`: per key (security id or the flat `None` key), the
list of message types already observed. -/
abbrev SecResponses := List (Option String × List String)

/-- The `security_responses[security].append(response_type)` bookkeeping of
`process_session` (src/bbg.py lines 147-151), creating the key's list first
when absent. -/
def srAppend (sr : SecResponses) (k : Option String) (t : String) : SecResponses :=
  match sr with
  | [] => [(k, [t])]
  | (k0, ts) :: rest =>
    if k0 = k then (k0, ts ++ [t]) :: rest else (k0, ts) :: srAppend rest k t

/-- `SessionFactory._get_response_count` (src/bbg.py lines 171-172):
`security_responses[security].count(request_type)`. -/
def srCount (sr : SecResponses) (k : Option String) (t : String) : Nat :=
  match sr with
  | [] => 0
  | (k0, ts) :: rest => if k0 = k then ts.count t else srCount rest k t

/-- The accumulator state of one `process_session` invocation. -/
structure SFState where
  output : Dict
  secResponses : SecResponses

/-- Python truthiness of the decoder's security value, as tested by
`if security:` (src/bbg.py line 155): `None` and the empty string are falsy. -/
def secTruthy : Option String → Bool
  | Option.none => false
  | some s => s ≠ ""

/-- The `else` (flat) arm of `process_session`'s per-message branch
(src/bbg.py lines 160-164): merge the fragment into the whole output when
this message type's count for the key exceeds one, else replace the whole
output with the fragment. -/
def sfFlatStep (output : Dict) (fragment : Dict) (cnt : Nat) : Dict :=
  if cnt > 1 then mergeTwoDicts output fragment else fragment

/-- The truthy-security arm of `process_session`'s per-message branch
(src/bbg.py lines 155-159): merge into `output[security]` when this message
type's count for the key exceeds one (`output[security]` raising `KeyError`,
and `.copy()` on a non-dict raising, surface as errors), else assign
`output[security]` directly. -/
def sfSecStep (output : Dict) (s : String) (fragment : Dict) (cnt : Nat) :
    Except PyExc Dict :=
  if cnt > 1 then
    match dictGet output (.s s) with
    | some (.dict old) => .ok (dictSet output (.s s) (.dict (mergeTwoDicts old fragment)))
    | some (.sv _) => .error .attributeError
    | Option.none => .error .keyError
  else .ok (dictSet output (.s s) (.dict fragment))

/-- One message step of `process_session`'s receive loop (src/bbg.py lines
138-164): a non-matching correlation id is skipped; otherwise the message
type is appended to the key's history (the dict key is the security value
itself, `None` or the string) and then `if security:` selects by Python
TRUTHINESS — a `None` or empty-string security takes the flat branch over
the whole output, any other string the per-security branch. -/
def sfStep (st : SFState) (m : SFMsg) : Except PyExc SFState :=
  if m.cidMatches then
    let sr := srAppend st.secResponses m.security m.responseType
    let cnt := srCount sr m.security m.responseType
    match m.security with
    | some s =>
      if s = "" then .ok ⟨sfFlatStep st.output m.fragment cnt, sr⟩
      else
        match sfSecStep st.output s m.fragment cnt with
        | .error e => .error e
        | .ok out => .ok ⟨out, sr⟩
    | Option.none => .ok ⟨sfFlatStep st.output m.fragment cnt, sr⟩
  else .ok st

/-- The fold of `sfStep` over the matching messages delivered before the
terminal `RESPONSE` event. -/
def sfRun (st : SFState) (msgs : List SFMsg) : Except PyExc SFState :=
  match msgs with
  | [] => .ok st
  | m :: rest =>
    match sfStep st m with
    | .error e => .error e
    | .ok st1 => sfRun st1 rest

/-- `SessionFactory.process_session` (src/bbg.py lines 126-169) over the
sequence of decoded messages, starting from `output = {}` and
`security_responses = {}` and returning the accumulated output. -/
def processSession (msgs : List SFMsg) : Except PyExc Dict :=
  match sfRun ⟨[], []⟩ msgs with
  | .error e => .error e
  | .ok st => .ok st.output

/-- Python truthiness for the values used in `Session.__init__`. -/
def pyTruthy : SVal → Bool
  | .i n => n ≠ 0
  | .s v => v ≠ ""
  | .b v => v
  | SVal.none => false
  | .date _ _ _ => true
  | .datetime _ _ _ _ _ _ => true
  | .time _ _ _ => true

/-- Python `x or y`: `x` when truthy, else `y`. -/
def pyOr (x y : SVal) : SVal :=
  if pyTruthy x then x else y

/-- `Session.DEFAULT_HOST` (src/bbg.py line 72). -/
def sessionDefaultHost : SVal := .s "localhost"

/-- `Session.DEFAULT_PORT` (src/bbg.py line 73). -/
def sessionDefaultPort : SVal := .i 8194

/-- `self.host = self.DEFAULT_HOST or host` (src/bbg.py line 82): the class
default is the left operand of `or`. -/
def sessionInitHost (host : SVal) : SVal :=
  pyOr sessionDefaultHost host

/-- `self.port = self.DEFAULT_PORT or port` (src/bbg.py line 83). -/
def sessionInitPort (port : SVal) : SVal :=
  pyOr sessionDefaultPort port

/-- `value.strftime('%Y%m%d')`: defined for dates and datetimes; any other
value has no `strftime` attribute and raises `AttributeError`. -/
def strftimeCompact : SVal → Except PyExc SVal
  | .date y m d => .ok (.s (zpad 4 y ++ zpad 2 m ++ zpad 2 d))
  | .datetime y m d _ _ _ => .ok (.s (zpad 4 y ++ zpad 2 m ++ zpad 2 d))
  | _ => .error .attributeError

/-- `ReferenceDataRequest.format_override` (src/bbg.py lines 656-659):
`value.strftime('%Y%m%d')` for field id `CURVE_DATE`, and the implicit
`return None` for every other field id. -/
def formatOverride (fieldId : String) (value : SVal) : Except PyExc SVal :=
  if fieldId = "CURVE_DATE" then strftimeCompact value else .ok SVal.none

/-- The overrides loop of `ReferenceDataRequest.get` (src/bbg.py lines
638-642): each `(field_id, value)` pair is transmitted as
`(field_id, format_override(field_id, value))`. -/
def sentOverrides (ovs : List (String × SVal)) : Except PyExc (List (String × SVal)) :=
  match ovs with
  | [] => .ok []
  | (fid, v) :: rest =>
    match formatOverride fid v with
    | .error e => .error e
    | .ok r =>
      match sentOverrides rest with
      | .error e => .error e
      | .ok rs => .ok ((fid, r) :: rs)

/-- Outcomes of the external collaborators during one public `get` call:
argument validation, `Session().start()`, service open / request creation,
`sendRequest`, and the decode loop (`process_session`). `Option.none` means
the stage succeeds; `some e` means it raises `e`. -/
structure Env where
  validErr : Option PyExc
  startFails : Bool
  createErr : Option PyExc
  sendErr : Option PyExc
  processErr : Option PyExc

/-- The observable trace of one public `get` call: its outcome, whether the
session was started, whether `sendRequest` was reached, and how many times
`session.stop()` ran. -/
structure GetTrace where
  outcome : Except PyExc Unit
  started : Bool
  dispatched : Bool
  stops : Nat
deriving Repr

/-- `HistoricalDataRequest.get` (src/bbg.py lines 528-600) as a control-flow
trace: the first `try` (start / create / send) re-raises with no `finally`,
so an error there leaves `session.stop()` uncalled even after a successful
start; only the second `try` around `process_session` carries the
`finally: session.stop()`. -/
def historicalDataRequestGet (env : Env) : GetTrace :=
  match env.validErr with
  | some e => ⟨.error e, false, false, 0⟩
  | Option.none =>
    if env.startFails then ⟨.error .connectionFailed, false, false, 0⟩
    else
      match env.createErr with
      | some e => ⟨.error e, true, false, 0⟩
      | Option.none =>
        match env.sendErr with
        | some e => ⟨.error e, true, true, 0⟩
        | Option.none =>
          match env.processErr with
          | some e => ⟨.error e, true, true, 1⟩
          | Option.none => ⟨.ok (), true, true, 1⟩

/-- `ReferenceDataRequest.get` (src/bbg.py lines 608-654): the same two-block
structure as the historical request (the override loop lives inside the first
`try`, covered by `createErr`/`sendErr`). -/
def referenceDataRequestGet (env : Env) : GetTrace :=
  match env.validErr with
  | some e => ⟨.error e, false, false, 0⟩
  | Option.none =>
    if env.startFails then ⟨.error .connectionFailed, false, false, 0⟩
    else
      match env.createErr with
      | some e => ⟨.error e, true, false, 0⟩
      | Option.none =>
        match env.sendErr with
        | some e => ⟨.error e, true, true, 0⟩
        | Option.none =>
          match env.processErr with
          | some e => ⟨.error e, true, true, 1⟩
          | Option.none => ⟨.ok (), true, true, 1⟩

/-- The first statement of `IntradayBarRequest.get`'s validation block
(src/bbg.py line 490): `assert isinstance(ticker)` — `isinstance` called with
a single argument raises `TypeError` unconditionally, and `except
AssertionError` does not catch it. -/
def assertIsinstanceSingleArg : Except PyExc Unit := .error .typeError

/-- `IntradayBarRequest.get` (src/bbg.py lines 469-520): the validation block
runs before any session is created; the session/dispatch flow mirrors the
other two requests but sits behind the always-raising first assertion. -/
def intradayBarRequestGet (env : Env) : GetTrace :=
  match assertIsinstanceSingleArg with
  | .error e => ⟨.error e, false, false, 0⟩
  | .ok _ =>
    match env.validErr with
    | some e => ⟨.error e, false, false, 0⟩
    | Option.none =>
      if env.startFails then ⟨.error .connectionFailed, false, false, 0⟩
      else
        match env.createErr with
        | some e => ⟨.error e, true, false, 0⟩
        | Option.none =>
          match env.sendErr with
          | some e => ⟨.error e, true, true, 0⟩
          | Option.none =>
            match env.processErr with
            | some e => ⟨.error e, true, true, 1⟩
            | Option.none => ⟨.ok (), true, true, 1⟩

/-! Concrete test vectors used by the counterexamples and witnesses. -/

/-- A response-level error element, as delivered at the top of a message. -/
def reElem : Element :=
  .complexE "responseError" .SEQUENCE [.scalarE "category" .STRING (.s "BAD_SEC")]

/-- A message carrying only a top-level response error. -/
def reMsg : Msg := ⟨[reElem]⟩

/-- A first fragment for security `A` arriving under message type `T1`. -/
def frag1Msg : SFMsg := ⟨true, some "A", [(.s "x", .sv (.i 1))], "T1"⟩

/-- A second fragment for security `A` arriving under a different message type
`T2`. -/
def frag2Msg : SFMsg := ⟨true, some "A", [(.s "y", .sv (.i 2))], "T2"⟩

/-- A fragment for security `A` under message type `T`. -/
def fragT1Msg : SFMsg := ⟨true, some "A", [(.s "x", .sv (.i 1))], "T"⟩

/-- A later fragment for security `A` under the same message type `T`. -/
def fragT2Msg : SFMsg := ⟨true, some "A", [(.s "y", .sv (.i 2))], "T"⟩

/-- A first flat (no-security) fragment, as an intraday decoder produces. -/
def flatFrag1Msg : SFMsg :=
  ⟨true, Option.none, [(.s "09:30:00", .sv (.i 1))], "IntradayBarResponse"⟩

/-- A second flat fragment of the same message type. -/
def flatFrag2Msg : SFMsg :=
  ⟨true, Option.none, [(.s "09:31:00", .sv (.i 2))], "IntradayBarResponse"⟩

/-- A doubly wrapped one-key mapping: flattening it once still leaves a
one-key mapping. -/
def nestedOnce : BVal := .dict [(.s "z", .dict [(.s "a", .sv (.i 5))])]

/-- A two-key mapping, a fixed point of the flattener. -/
def twoKeys : BVal := .dict [(.s "a", .sv (.i 1)), (.s "b", .sv (.i 2))]

/-- An environment in which the session starts but service opening / request
creation fails. -/
def createFailEnv : Env := ⟨Option.none, false, some PyExc.notFound, Option.none, Option.none⟩

/-- An environment in which everything up to dispatch succeeds and the decode
loop raises. -/
def processFailEnv : Env := ⟨Option.none, false, Option.none, Option.none, some PyExc.notFound⟩

/-- A sequence element with two same-named scalar children. -/
def dupScalarElem : Element :=
  .complexE "blk" .SEQUENCE [.scalarE "x" .INT32 (.i 1), .scalarE "x" .INT32 (.i 2)]

/-- A composite child named `ovr` holding one scalar. -/
def ovrChild1 : Element := .complexE "ovr" .SEQUENCE [.scalarE "a" .INT32 (.i 1)]

/-- A second composite child with the same name `ovr`. -/
def ovrChild2 : Element := .complexE "ovr" .SEQUENCE [.scalarE "b" .INT32 (.i 2)]

/-- A sequence element with two same-named composite children. -/
def dupCompositeElem : Element := .complexE "blk" .SEQUENCE [ovrChild1, ovrChild2]

/-- A well-formed per-security item of a reference-data response. -/
def refItem1 : Element := .complexE "item" .SEQUENCE
  [.scalarE "security" .STRING (.s "AAPL US Equity"),
   .complexE "fieldData" .SEQUENCE [.scalarE "PX_LAST" .FLOAT64 (.i 150)],
   .complexE "fieldExceptions" .SEQUENCE []]

/-- A second well-formed per-security item. -/
def refItem2 : Element := .complexE "item" .SEQUENCE
  [.scalarE "security" .STRING (.s "IBM US Equity"),
   .complexE "fieldData" .SEQUENCE [.scalarE "PX_LAST" .FLOAT64 (.i 250)],
   .complexE "fieldExceptions" .SEQUENCE []]

/-- A two-security `securityData` collection. -/
def refSd2 : Element := .arrayE "securityData" .SEQUENCE [refItem1, refItem2]

/-- A reference-data message with two securities. -/
def refMsg2 : Msg := ⟨[refSd2]⟩

/-- A one-security `securityData` collection. -/
def refSd1 : Element := .arrayE "securityData" .SEQUENCE [refItem1]

/-- A reference-data message with a single security. -/
def refMsg1 : Msg := ⟨[refSd1]⟩

/-- The Per-Security Result decoded from `refItem1`. -/
def refRec1 : Dict :=
  [(.s "security_data", .dict [(.s "PX_LAST", .sv (.i 150))]),
   (.s "field_exceptions", .dict []),
   (.s "security_errors", .dict [])]

/-- The Per-Security Result decoded from `refItem2`. -/
def refRec2 : Dict :=
  [(.s "security_data", .dict [(.s "PX_LAST", .sv (.i 250))]),
   (.s "field_exceptions", .dict []),
   (.s "security_errors", .dict [])]

/-- The security-keyed output decoded from the two-security message. -/
def refOut2 : Dict :=
  [(.s "AAPL US Equity", .dict refRec1), (.s "IBM US Equity", .dict refRec2)]

/-! Helper lemmas. -/

/-- Reading back the key just written by a Python dict assignment. -/
theorem dictGet_dictSet_self (d : Dict) (k : SVal) (v : BVal) :
    dictGet (dictSet d k v) k = some v := by
  induction d with
  | nil => simp [dictSet, dictGet]
  | cons p rest ih =>
    obtain ⟨k0, v0⟩ := p
    by_cases h : k0 = k <;> simp [dictSet, dictGet, h, ih]

/-- An entry of `dictSet d k v` is an entry of `d` or the pair just written. -/
theorem mem_of_mem_dictSet (d : Dict) (k : SVal) (v : BVal) (p : SVal × BVal)
    (hp : p ∈ dictSet d k v) : p ∈ d ∨ p = (k, v) := by
  induction d with
  | nil => simpa [dictSet] using hp
  | cons q rest ih =>
    obtain ⟨k0, v0⟩ := q
    by_cases h : k0 = k
    · rw [dictSet, if_pos h] at hp
      cases hp with
      | head => exact Or.inr (by rw [h])
      | tail _ hp => exact Or.inl (List.mem_cons_of_mem _ hp)
    · rw [dictSet, if_neg h] at hp
      cases hp with
      | head => exact Or.inl (List.mem_cons_self _ _)
      | tail _ hp =>
        cases ih hp with
        | inl h1 => exact Or.inl (List.mem_cons_of_mem _ h1)
        | inr h1 => exact Or.inr h1

/-- Appending a message type to a key's history increments that key's count of
that type by one. -/
theorem srCount_srAppend_self (sr : SecResponses) (k : Option String) (t : String) :
    srCount (srAppend sr k t) k t = srCount sr k t + 1 := by
  induction sr with
  | nil => simp [srAppend, srCount]
  | cons p rest ih =>
    obtain ⟨k0, ts⟩ := p
    by_cases h : k0 = k <;> simp [srAppend, srCount, h, ih]

/-- A string never equals itself extended by an underscore suffix. -/
theorem ne_append_suffix (n t : String) : n ≠ n ++ "_" ++ t := by
  intro h
  have hl := congrArg String.length h
  rw [String.length_append, String.length_append] at hl
  have h1 : ("_" : String).length = 1 := rfl
  omega

/-! Claim theorems. -/

/-- C10: for every host and port argument, `Session.__init__` sets the host to
`localhost` and the port to `8194`, because each class default is the truthy
left operand of `or`; caller-supplied values are ignored. -/
theorem session_init_ignores_caller_host_port (host port : SVal) :
    sessionInitHost host = .s "localhost" ∧ sessionInitPort port = .i 8194 :=
  ⟨rfl, rfl⟩

/-- C8: for every environment of external outcomes, `IntradayBarRequest.get`
raises `TypeError` in its validation block — its first assertion calls
`isinstance` with a single argument — before any session is started or any
request dispatched. -/
theorem intraday_get_always_type_error (env : Env) :
    intradayBarRequestGet env = ⟨.error .typeError, false, false, 0⟩ :=
  rfl

/-- C6: a scalar element with declared kind correlation-id or enumeration
never yields a `(name, value)` pair; the handler returns the
`NotImplementedError` class (instead of raising it), and `_field_factory`
then raises `TypeError` from subscripting that class — so the decode fails
fast, but with `TypeError` rather than a not-implemented signal. -/
theorem field_factory_unsupported_kinds_raise (n : String) (v : SVal) :
    fieldFactory (.scalarE n .CORRELATION_ID v) = .error .typeError ∧
    fieldFactory (.scalarE n .ENUMERATION v) = .error .typeError :=
  ⟨rfl, rfl⟩

/-- C2: each of the three message decoders, on a message with a top-level
`responseError` element, returns exactly `(None, decoded response error)` —
the outcome is the decoded response-error mapping alone, independent of any
security-level or field-level content of the message. -/
theorem decoders_response_error_short_circuit (msg : Msg) (re : Element)
    (h : msg.getElement "responseError" = some re) :
    processHistoricalDataMsg msg
        = (responseErrorFactory re).map (fun d => (Option.none, BVal.dict d)) ∧
    processRefDataMsg msg
        = (responseErrorFactory re).map (fun d => (Option.none, BVal.dict d)) ∧
    processIntradayDataMsg msg
        = (responseErrorFactory re).map (fun d => (Option.none, BVal.dict d)) := by
  refine ⟨?_, ?_, ?_⟩ <;>
  · simp only [processHistoricalDataMsg, processRefDataMsg, processIntradayDataMsg, h]
    cases hre : responseErrorFactory re <;> simp [Except.map]

/-- Witness for C2 at a concrete message carrying a response error. -/
theorem decoders_response_error_short_circuit_witness :
    processHistoricalDataMsg reMsg
        = (responseErrorFactory reElem).map (fun d => (Option.none, BVal.dict d)) ∧
    processRefDataMsg reMsg
        = (responseErrorFactory reElem).map (fun d => (Option.none, BVal.dict d)) ∧
    processIntradayDataMsg reMsg
        = (responseErrorFactory reElem).map (fun d => (Option.none, BVal.dict d)) :=
  decoders_response_error_short_circuit reMsg reElem rfl

/-- C5 counterexample: the flattener is not idempotent — on a doubly wrapped
one-key mapping, the first application returns a one-key mapping and the
second application unwraps it further. -/
theorem flatten_not_idempotent :
    flattenDict (flattenDict nestedOnce) ≠ flattenDict nestedOnce := by
  have h1 : flattenDict nestedOnce = .dict [(.s "a", .sv (.i 5))] := rfl
  have h2 : flattenDict (BVal.dict [(.s "a", .sv (.i 5))]) = .sv (.i 5) := rfl
  rw [h1, h2]
  simp

/-- C5 amended: flattening is idempotent on every input whose flattened result
is not a mapping with at most one key — non-mappings and multi-key mappings
are fixed points of the flattener. -/
theorem flatten_idempotent_off_small_mappings (x : BVal)
    (h : ∀ d, flattenDict x = BVal.dict d → 1 < d.length) :
    flattenDict (flattenDict x) = flattenDict x := by
  cases hx : flattenDict x with
  | sv v => rfl
  | dict d =>
    have hlen := h d hx
    match d, hlen with
    | a :: b :: rest, _ => rfl

/-- Witness for C5 amended at a concrete two-key mapping. -/
theorem flatten_idempotent_off_small_mappings_witness :
    flattenDict (flattenDict twoKeys) = flattenDict twoKeys :=
  flatten_idempotent_off_small_mappings twoKeys (by
    intro d h
    rw [show flattenDict twoKeys
        = BVal.dict [(.s "a", .sv (.i 1)), (.s "b", .sv (.i 2))] from rfl] at h
    injection h with h2
    subst h2
    decide)

/-- C7 counterexample: with a successful session start followed by a failure
in request creation, `HistoricalDataRequest.get` exits on an error path with
the session started but `session.stop()` never invoked — the first `try`
block has no `finally`. -/
theorem get_stop_skipped_on_create_failure :
    (historicalDataRequestGet createFailEnv).started = true ∧
    (historicalDataRequestGet createFailEnv).stops = 0 ∧
    (referenceDataRequestGet createFailEnv).started = true ∧
    (referenceDataRequestGet createFailEnv).stops = 0 :=
  ⟨rfl, rfl, rfl, rfl⟩

/-- C7 amended: once the session has started and the request has been created
and dispatched successfully, `session.stop()` runs exactly once on every exit
path of `HistoricalDataRequest.get` and `ReferenceDataRequest.get` (normal
completion and decode-loop error alike); an error between start and dispatch
skips it, and `IntradayBarRequest.get` never reaches session start at all. -/
theorem get_stop_exactly_once_after_dispatch (env : Env)
    (hv : env.validErr = Option.none) (hs : env.startFails = false)
    (hc : env.createErr = Option.none) (hd : env.sendErr = Option.none) :
    (historicalDataRequestGet env).stops = 1 ∧
    (historicalDataRequestGet env).started = true ∧
    (referenceDataRequestGet env).stops = 1 ∧
    (referenceDataRequestGet env).started = true ∧
    (intradayBarRequestGet env).started = false ∧
    (intradayBarRequestGet env).stops = 0 := by
  cases hp : env.processErr <;>
    simp [historicalDataRequestGet, referenceDataRequestGet, intradayBarRequestGet,
      assertIsinstanceSingleArg, hv, hs, hc, hd, hp]

/-- Witness for C7 amended: all stages up to dispatch succeed and the decode
loop raises; `stop()` still runs exactly once. -/
theorem get_stop_exactly_once_after_dispatch_witness :
    (historicalDataRequestGet processFailEnv).stops = 1 ∧
    (historicalDataRequestGet processFailEnv).started = true ∧
    (referenceDataRequestGet processFailEnv).stops = 1 ∧
    (referenceDataRequestGet processFailEnv).started = true ∧
    (intradayBarRequestGet processFailEnv).started = false ∧
    (intradayBarRequestGet processFailEnv).stops = 0 :=
  get_stop_exactly_once_after_dispatch processFailEnv rfl rfl rfl rfl

/-- C1 counterexample: two fragments for the same security key `A`, the second
under a different message type, do NOT merge — the count of the second
message's type for key `A` is 1, so the second fragment replaces the
accumulated value wholesale and the first fragment's key `x` is discarded. -/
theorem process_session_discards_on_new_message_type :
    processSession [frag1Msg, frag2Msg] = .ok [(.s "A", .dict [(.s "y", .sv (.i 2))])] ∧
    dictGet [(.s "y", BVal.sv (.i 2))] (.s "x") = Option.none :=
  ⟨rfl, rfl⟩

/-- Running the accumulator over further matching messages that share one
truthy security key and one message type folds each fragment into the key's
value by shallow merge. -/
theorem sfRun_same_type_accumulates (msgs : List SFMsg) (s rt : String) (hs : s ≠ "")
    (hall : ∀ m ∈ msgs, m.cidMatches = true ∧ m.security = some s ∧ m.responseType = rt)
    (st : SFState) (d : Dict)
    (hout : dictGet st.output (.s s) = some (.dict d))
    (hcnt : 1 ≤ srCount st.secResponses (some s) rt) :
    ∃ stF, sfRun st msgs = .ok stF ∧
      dictGet stF.output (.s s)
        = some (.dict (msgs.foldl (fun acc m => mergeTwoDicts acc m.fragment) d)) := by
  induction msgs generalizing st d with
  | nil => exact ⟨st, rfl, by simpa using hout⟩
  | cons m rest ih =>
    obtain ⟨hm, hsec, hrt⟩ := hall m (List.mem_cons_self _ _)
    have hcnt1 : srCount (srAppend st.secResponses (some s) rt) (some s) rt
        = srCount st.secResponses (some s) rt + 1 :=
      srCount_srAppend_self _ _ _
    have hgt : 1 < srCount (srAppend st.secResponses (some s) rt) (some s) rt := by
      rw [hcnt1]
      exact Nat.lt_succ_of_le hcnt
    have hsec2 : sfSecStep st.output s m.fragment
        (srCount (srAppend st.secResponses (some s) rt) (some s) rt)
        = .ok (dictSet st.output (.s s) (.dict (mergeTwoDicts d m.fragment))) := by
      rw [sfSecStep, if_pos hgt, hout]
    have hstep : sfStep st m
        = .ok ⟨dictSet st.output (.s s) (.dict (mergeTwoDicts d m.fragment)),
               srAppend st.secResponses (some s) rt⟩ := by
      simp only [sfStep, hm, hsec, hrt, if_true]
      rw [if_neg hs, hsec2]
    have hrest : ∀ m' ∈ rest, m'.cidMatches = true ∧ m'.security = some s ∧
        m'.responseType = rt :=
      fun m' hm' => hall m' (List.mem_cons_of_mem _ hm')
    obtain ⟨stF, hF, hgF⟩ := ih hrest
      ⟨dictSet st.output (.s s) (.dict (mergeTwoDicts d m.fragment)),
       srAppend st.secResponses (some s) rt⟩
      (mergeTwoDicts d m.fragment)
      (dictGet_dictSet_self _ _ _)
      (Nat.le_of_lt hgt)
    refine ⟨stF, ?_, ?_⟩
    · rw [sfRun, hstep]
      exact hF
    · rw [List.foldl_cons]
      exact hgF

/-- Running the accumulator over further matching messages that share one
FALSY security key (`None` or the empty string) and one message type folds
each fragment into the whole output by shallow merge. -/
theorem sfRun_flat_same_type_accumulates (msgs : List SFMsg) (k : Option String)
    (rt : String) (hfal : secTruthy k = false)
    (hall : ∀ m ∈ msgs, m.cidMatches = true ∧ m.security = k ∧ m.responseType = rt)
    (st : SFState) (hcnt : 1 ≤ srCount st.secResponses k rt) :
    ∃ stF, sfRun st msgs = .ok stF ∧
      stF.output = msgs.foldl (fun acc m => mergeTwoDicts acc m.fragment) st.output := by
  induction msgs generalizing st with
  | nil => exact ⟨st, rfl, rfl⟩
  | cons m rest ih =>
    obtain ⟨hm, hsec, hrt⟩ := hall m (List.mem_cons_self _ _)
    have hcnt1 : srCount (srAppend st.secResponses k rt) k rt
        = srCount st.secResponses k rt + 1 :=
      srCount_srAppend_self _ _ _
    have hgt : 1 < srCount (srAppend st.secResponses k rt) k rt := by
      rw [hcnt1]
      exact Nat.lt_succ_of_le hcnt
    have hstep : sfStep st m
        = .ok ⟨mergeTwoDicts st.output m.fragment, srAppend st.secResponses k rt⟩ := by
      cases k with
      | none =>
        simp only [sfStep, hm, hsec, hrt, if_true]
        rw [sfFlatStep, if_pos hgt]
      | some s =>
        have hse : s = "" := by simpa [secTruthy] using hfal
        simp only [sfStep, hm, hsec, hrt, if_true]
        rw [if_pos hse, sfFlatStep, if_pos hgt]
    have hrest : ∀ m' ∈ rest, m'.cidMatches = true ∧ m'.security = k ∧
        m'.responseType = rt :=
      fun m' hm' => hall m' (List.mem_cons_of_mem _ hm')
    obtain ⟨stF, hF, hgF⟩ := ih hrest
      ⟨mergeTwoDicts st.output m.fragment, srAppend st.secResponses k rt⟩
      (Nat.le_of_lt hgt)
    refine ⟨stF, ?_, ?_⟩
    · rw [sfRun, hstep]
      exact hF
    · rw [List.foldl_cons]
      exact hgF

/-- C1 amended: fragment replacement versus merge is decided per (key,
message-type) pair, where the key is the decoder's security value (a truthy
string keys `output[security]`; `None` or the empty string select the flat
whole-output branch). When every matching fragment carries the same key and
the same message type, the first fragment is set directly and each subsequent
fragment is shallow-merged (new keys overwrite same-named old ones), and the
result is never discarded: the final value — the key's entry for a truthy
security, the whole output for the flat key — is the left fold of shallow
merges over all fragments. -/
theorem process_session_same_type_merges (m0 : SFMsg) (rest : List SFMsg)
    (k : Option String) (rt : String)
    (hall : ∀ m ∈ m0 :: rest, m.cidMatches = true ∧ m.security = k ∧ m.responseType = rt)
    (out : Dict) (hrun : processSession (m0 :: rest) = .ok out) :
    (∀ s, k = some s → s ≠ "" →
      dictGet out (.s s)
        = some (.dict (rest.foldl (fun acc m => mergeTwoDicts acc m.fragment) m0.fragment))) ∧
    (secTruthy k = false →
      out = rest.foldl (fun acc m => mergeTwoDicts acc m.fragment) m0.fragment) := by
  obtain ⟨hm, hsec, hrt⟩ := hall m0 (List.mem_cons_self _ _)
  have hrest : ∀ m' ∈ rest, m'.cidMatches = true ∧ m'.security = k ∧ m'.responseType = rt :=
    fun m' hm' => hall m' (List.mem_cons_of_mem _ hm')
  constructor
  · intro s hk hs
    subst hk
    have hstep0 : sfStep ⟨[], []⟩ m0
        = .ok ⟨[(.s s, .dict m0.fragment)], [(some s, [rt])]⟩ := by
      have hc : srCount (srAppend ([] : SecResponses) (some s) rt) (some s) rt = 1 := by
        simp [srAppend, srCount]
      simp only [sfStep, hm, hsec, hrt, if_true]
      rw [if_neg hs, hc, sfSecStep, if_neg (by omega : ¬(1 > 1))]
      rfl
    obtain ⟨stF, hF, hgF⟩ := sfRun_same_type_accumulates rest s rt hs hrest
      ⟨[(.s s, .dict m0.fragment)], [(some s, [rt])]⟩ m0.fragment
      (by simp [dictGet]) (by simp [srCount])
    have e1 : sfRun (⟨[], []⟩ : SFState) (m0 :: rest)
        = sfRun ⟨[(.s s, .dict m0.fragment)], [(some s, [rt])]⟩ rest := by
      have h0 : sfRun (⟨[], []⟩ : SFState) (m0 :: rest)
          = match sfStep ⟨[], []⟩ m0 with
            | .error e => .error e
            | .ok st1 => sfRun st1 rest := rfl
      rw [h0, hstep0]
    have e2 : processSession (m0 :: rest) = .ok stF.output := by
      have h0 : processSession (m0 :: rest)
          = match sfRun (⟨[], []⟩ : SFState) (m0 :: rest) with
            | .error e => .error e
            | .ok st => .ok st.output := rfl
      rw [h0, e1, hF]
    rw [e2] at hrun
    injection hrun with hout
    rw [← hout]
    exact hgF
  · intro hfal
    have hstep0 : sfStep ⟨[], []⟩ m0 = .ok ⟨m0.fragment, [(k, [rt])]⟩ := by
      cases k with
      | none =>
        have hc : srCount (srAppend ([] : SecResponses) Option.none rt) Option.none rt
            = 1 := by simp [srAppend, srCount]
        simp only [sfStep, hm, hsec, hrt, if_true]
        rw [hc, sfFlatStep, if_neg (by omega : ¬(1 > 1))]
        rfl
      | some s =>
        have hse : s = "" := by simpa [secTruthy] using hfal
        have hc : srCount (srAppend ([] : SecResponses) (some s) rt) (some s) rt = 1 := by
          simp [srAppend, srCount]
        simp only [sfStep, hm, hsec, hrt, if_true]
        rw [if_pos hse, hc, sfFlatStep, if_neg (by omega : ¬(1 > 1))]
        rfl
    obtain ⟨stF, hF, hgF⟩ := sfRun_flat_same_type_accumulates rest k rt hfal hrest
      ⟨m0.fragment, [(k, [rt])]⟩ (by simp [srCount])
    have e1 : sfRun (⟨[], []⟩ : SFState) (m0 :: rest)
        = sfRun ⟨m0.fragment, [(k, [rt])]⟩ rest := by
      have h0 : sfRun (⟨[], []⟩ : SFState) (m0 :: rest)
          = match sfStep ⟨[], []⟩ m0 with
            | .error e => .error e
            | .ok st1 => sfRun st1 rest := rfl
      rw [h0, hstep0]
    have e2 : processSession (m0 :: rest) = .ok stF.output := by
      have h0 : processSession (m0 :: rest)
          = match sfRun (⟨[], []⟩ : SFState) (m0 :: rest) with
            | .error e => .error e
            | .ok st => .ok st.output := rfl
      rw [h0, e1, hF]
    rw [e2] at hrun
    injection hrun with hout
    rw [← hout]
    exact hgF

/-- Witness for C1 amended: two same-type fragments for the truthy key `A`
merge into a two-key value, and two same-type flat (no-security) intraday
fragments merge into a two-key whole output. -/
theorem process_session_same_type_merges_witness :
    dictGet [(.s "A", BVal.dict [(.s "x", .sv (.i 1)), (.s "y", .sv (.i 2))])] (.s "A")
      = some (.dict ([fragT2Msg].foldl
          (fun acc m => mergeTwoDicts acc m.fragment) fragT1Msg.fragment)) ∧
    ([(.s "09:30:00", BVal.sv (.i 1)), (.s "09:31:00", BVal.sv (.i 2))] : Dict)
      = [flatFrag2Msg].foldl (fun acc m => mergeTwoDicts acc m.fragment)
          flatFrag1Msg.fragment :=
  ⟨(process_session_same_type_merges fragT1Msg [fragT2Msg] (some "A") "T"
      (by
        intro m hm
        cases hm with
        | head => exact ⟨rfl, rfl, rfl⟩
        | tail _ hm2 =>
          cases hm2 with
          | head => exact ⟨rfl, rfl, rfl⟩
          | tail _ hm3 => cases hm3)
      [(.s "A", BVal.dict [(.s "x", .sv (.i 1)), (.s "y", .sv (.i 2))])] rfl).1
    "A" rfl (by decide),
   (process_session_same_type_merges flatFrag1Msg [flatFrag2Msg] Option.none
      "IntradayBarResponse"
      (by
        intro m hm
        cases hm with
        | head => exact ⟨rfl, rfl, rfl⟩
        | tail _ hm2 =>
          cases hm2 with
          | head => exact ⟨rfl, rfl, rfl⟩
          | tail _ hm3 => cases hm3)
      [(.s "09:30:00", BVal.sv (.i 1)), (.s "09:31:00", BVal.sv (.i 2))] rfl).2
    rfl⟩

/-- C9: every override whose field id is not `CURVE_DATE` is transmitted with
its caller-supplied value replaced by `None` (the implicit return of
`format_override`), and an override with field id `CURVE_DATE` and a date
value is transmitted as the `YYYYMMDD`-formatted string. -/
theorem format_override_non_curve_date_is_none :
    (∀ fid v, fid ≠ "CURVE_DATE" → formatOverride fid v = .ok SVal.none) ∧
    (∀ y m d, formatOverride "CURVE_DATE" (.date y m d)
        = .ok (.s (zpad 4 y ++ zpad 2 m ++ zpad 2 d))) ∧
    (∀ ovs res fid v, sentOverrides ovs = .ok res → (fid, v) ∈ ovs →
        fid ≠ "CURVE_DATE" → (fid, SVal.none) ∈ res) := by
  refine ⟨?_, ?_, ?_⟩
  · intro fid v hne
    rw [formatOverride, if_neg hne]
  · intro y m d
    rfl
  · intro ovs
    induction ovs with
    | nil => intro res fid v _ hm; cases hm
    | cons p rest ih =>
      intro res fid v hok hm hne
      obtain ⟨f0, v0⟩ := p
      rw [sentOverrides] at hok
      cases hf : formatOverride f0 v0 with
      | error e => rw [hf] at hok; cases hok
      | ok r =>
        rw [hf] at hok
        cases hr : sentOverrides rest with
        | error e => rw [hr] at hok; cases hok
        | ok rs =>
          rw [hr] at hok
          injection hok with hres
          subst hres
          cases hm with
          | head =>
            have : formatOverride fid v = .ok SVal.none := by
              rw [formatOverride, if_neg hne]
            rw [this] at hf
            injection hf with hrn
            rw [← hrn]
            exact List.mem_cons_self _ _
          | tail _ hm2 =>
            exact List.mem_cons_of_mem _ (ih rs fid v hr hm2 hne)

/-- Any successful `_element_factory` call on a composite-kind element writes
exactly one key into the caller's dict: the element's name, suffixed with the
current duplicate count when the name is already present at this level. -/
theorem elementFactory_composite_shape (c : Element) (dups : List String) (results : Dict)
    (hdt : c.datatype ∈ bbgSequences) (dF : List String) (r : Dict)
    (hok : elementFactory c dups results = .ok (dF, r)) :
    ∃ inner,
      r = dictSet results
        (.s (if dictHasKey results (.s c.name)
             then c.name ++ "_" ++ toString dups.length else c.name))
        (.dict inner) := by
  cases c with
  | scalarE n dt v =>
    have hdef : elementFactory (.scalarE n dt v) dups results
        = if dt ∈ bbgSequences then .error .typeError
          else scalarAssign dups results (fieldFactory (.scalarE n dt v)) := rfl
    rw [hdef] at hok
    simp only [Element.datatype] at hdt
    rw [if_pos hdt] at hok
    cases hok
  | arrayE n dt cs =>
    have hdef : elementFactory (.arrayE n dt cs) dups results
        = if dt ∈ bbgSequences then
            elementFactoryStep results
              (if dictHasKey results (.s n) = true
               then n ++ "_" ++ toString dups.length else n)
              (elementFactoryList cs
                (if dictHasKey results (.s n) = true
                 then dups ++ [n ++ "_" ++ toString dups.length] else dups) [])
          else scalarAssign dups results (fieldFactory (.arrayE n dt cs)) := rfl
    rw [hdef] at hok
    simp only [Element.datatype] at hdt
    simp only [Element.name]
    rw [if_pos hdt] at hok
    by_cases hk : dictHasKey results (.s n) = true
    · rw [if_pos hk] at hok ⊢
      rw [if_pos hk] at hok
      cases hL : elementFactoryList cs (dups ++ [n ++ "_" ++ toString dups.length]) [] with
      | error e => rw [hL, elementFactoryStep] at hok; cases hok
      | ok p =>
        obtain ⟨d2, sub⟩ := p
        rw [hL, elementFactoryStep] at hok
        injection hok with h1
        injection h1 with h2 h3
        exact ⟨sub, h3.symm⟩
    · rw [if_neg hk] at hok ⊢
      rw [if_neg hk] at hok
      cases hL : elementFactoryList cs dups [] with
      | error e => rw [hL, elementFactoryStep] at hok; cases hok
      | ok p =>
        obtain ⟨d2, sub⟩ := p
        rw [hL, elementFactoryStep] at hok
        injection hok with h1
        injection h1 with h2 h3
        exact ⟨sub, h3.symm⟩
  | complexE n dt cs =>
    have hdef : elementFactory (.complexE n dt cs) dups results
        = if dt ∈ bbgSequences then
            elementFactoryStep results
              (if dictHasKey results (.s n) = true
               then n ++ "_" ++ toString dups.length else n)
              (elementFactoryList cs
                (if dictHasKey results (.s n) = true
                 then dups ++ [n ++ "_" ++ toString dups.length] else dups) [])
          else scalarAssign dups results (fieldFactory (.complexE n dt cs)) := rfl
    rw [hdef] at hok
    simp only [Element.datatype] at hdt
    simp only [Element.name]
    rw [if_pos hdt] at hok
    by_cases hk : dictHasKey results (.s n) = true
    · rw [if_pos hk] at hok ⊢
      rw [if_pos hk] at hok
      cases hL : elementFactoryList cs (dups ++ [n ++ "_" ++ toString dups.length]) [] with
      | error e => rw [hL, elementFactoryStep] at hok; cases hok
      | ok p =>
        obtain ⟨d2, sub⟩ := p
        rw [hL, elementFactoryStep] at hok
        injection hok with h1
        injection h1 with h2 h3
        exact ⟨sub, h3.symm⟩
    · rw [if_neg hk] at hok ⊢
      rw [if_neg hk] at hok
      cases hL : elementFactoryList cs dups [] with
      | error e => rw [hL, elementFactoryStep] at hok; cases hok
      | ok p =>
        obtain ⟨d2, sub⟩ := p
        rw [hL, elementFactoryStep] at hok
        injection hok with h1
        injection h1 with h2 h3
        exact ⟨sub, h3.symm⟩

/-- C4 counterexample: an element with two same-named SCALAR children decodes
to a single key — the second child's value overwrites the first, because the
scalar branch of `_element_factory` performs no duplicate detection. -/
theorem element_factory_scalar_duplicate_overwrites :
    elementFactoryTop dupScalarElem = .ok [(.s "blk", .dict [(.s "x", .sv (.i 2))])] ∧
    ([(SVal.s "x", BVal.sv (SVal.i 2))] : Dict).length = 1 :=
  ⟨rfl, rfl⟩

/-- C4 amended: duplicate-name suffixing applies to composite children —
decoding an element whose children are exactly two same-named composite
elements yields two distinct keys at that level, the second suffixed with the
current duplicate count; same-named scalar siblings instead overwrite. -/
theorem element_factory_two_composite_children (pn n : String) (c1 c2 : Element)
    (h1 : c1.datatype ∈ bbgSequences) (h2 : c2.datatype ∈ bbgSequences)
    (hn1 : c1.name = n) (hn2 : c2.name = n) (r : Dict)
    (hok : elementFactoryTop (.complexE pn .SEQUENCE [c1, c2]) = .ok r) :
    ∃ (i1 i2 : Dict) (k : Nat),
      r = [(.s pn, .dict [(.s n, .dict i1), (.s (n ++ "_" ++ toString k), .dict i2)])] ∧
      n ≠ n ++ "_" ++ toString k := by
  cases hc1 : elementFactory c1 [] [] with
  | error e =>
    have hbad : elementFactoryTop (.complexE pn .SEQUENCE [c1, c2]) = .error e := by
      have h0 : elementFactoryTop (.complexE pn .SEQUENCE [c1, c2])
          = match elementFactoryStep [] pn (elementFactoryList [c1, c2] [] []) with
            | .error err => .error err
            | .ok (_, rr) => .ok rr := rfl
      have h1 : elementFactoryList [c1, c2] [] []
          = match elementFactory c1 [] [] with
            | .error err => .error err
            | .ok (d, s) => elementFactoryList [c2] d s := rfl
      rw [h0, h1, hc1, elementFactoryStep]
    rw [hbad] at hok
    cases hok
  | ok p1 =>
    obtain ⟨d1, s1⟩ := p1
    obtain ⟨i1, hs1⟩ := elementFactory_composite_shape c1 [] [] h1 d1 s1 hc1
    rw [hn1] at hs1
    have hs1c : s1 = [(SVal.s n, BVal.dict i1)] := by
      rw [hs1]
      rfl
    cases hc2 : elementFactory c2 d1 s1 with
    | error e =>
      have hbad : elementFactoryTop (.complexE pn .SEQUENCE [c1, c2]) = .error e := by
        have h0 : elementFactoryTop (.complexE pn .SEQUENCE [c1, c2])
            = match elementFactoryStep [] pn (elementFactoryList [c1, c2] [] []) with
              | .error err => .error err
              | .ok (_, rr) => .ok rr := rfl
        have h1 : elementFactoryList [c1, c2] [] []
            = match elementFactory c1 [] [] with
              | .error err => .error err
              | .ok (d, s) => elementFactoryList [c2] d s := rfl
        have h2 : elementFactoryList [c2] d1 s1
            = match elementFactory c2 d1 s1 with
              | .error err => .error err
              | .ok (d, s) => elementFactoryList [] d s := rfl
        rw [h0, h1, hc1]
        rw [show (match Except.ok (d1, s1) with
              | .error err => (.error err : Except PyExc (List String × Dict))
              | .ok (d, s) => elementFactoryList [c2] d s) = elementFactoryList [c2] d1 s1
            from rfl]
        rw [h2, hc2, elementFactoryStep]
      rw [hbad] at hok
      cases hok
    | ok p2 =>
      obtain ⟨d2, s2⟩ := p2
      obtain ⟨i2, hs2⟩ := elementFactory_composite_shape c2 d1 s1 h2 d2 s2 hc2
      rw [hn2, hs1c] at hs2
      have hkey : dictHasKey [(SVal.s n, BVal.dict i1)] (.s n) = true := by
        simp [dictHasKey]
      rw [hkey] at hs2
      have hne : n ≠ n ++ "_" ++ toString d1.length := ne_append_suffix _ _
      have hset : dictSet [(SVal.s n, BVal.dict i1)]
          (.s (n ++ "_" ++ toString d1.length)) (.dict i2)
          = [(SVal.s n, BVal.dict i1),
             (.s (n ++ "_" ++ toString d1.length), .dict i2)] := by
        rw [dictSet, if_neg (fun hc => hne (SVal.s.inj hc)), dictSet]
      rw [if_pos rfl, hset] at hs2
      have hgood : elementFactoryTop (.complexE pn .SEQUENCE [c1, c2]) = .ok (dictSet [] (.s pn) (.dict s2)) := by
        have h0 : elementFactoryTop (.complexE pn .SEQUENCE [c1, c2])
            = match elementFactoryStep [] pn (elementFactoryList [c1, c2] [] []) with
              | .error err => .error err
              | .ok (_, rr) => .ok rr := rfl
        have h1 : elementFactoryList [c1, c2] [] []
            = match elementFactory c1 [] [] with
              | .error err => .error err
              | .ok (d, s) => elementFactoryList [c2] d s := rfl
        have h2 : elementFactoryList [c2] d1 s1
            = match elementFactory c2 d1 s1 with
              | .error err => .error err
              | .ok (d, s) => elementFactoryList [] d s := rfl
        rw [h0, h1, hc1]
        rw [show (match Except.ok (d1, s1) with
              | .error err => (.error err : Except PyExc (List String × Dict))
              | .ok (d, s) => elementFactoryList [c2] d s) = elementFactoryList [c2] d1 s1
            from rfl]
        rw [h2, hc2]
        rfl
      rw [hgood] at hok
      injection hok with hr
      refine ⟨i1, i2, d1.length, ?_, hne⟩
      rw [← hr, hs2]
      rfl

/-- An element with an iterator has an iterator length equal to the number of
iterated values. -/
theorem getIteratorLen_of_iterator (el : Element) (items : List Element)
    (h : getBbgIterator el = some items) : getIteratorLen el = some items.length := by
  cases el with
  | scalarE n d v => cases h
  | arrayE n d xs =>
    have h2 : (some xs : Option (List Element)) = some items := h
    injection h2 with h3
    subst h3
    rfl
  | complexE n d xs =>
    have h2 : (some xs : Option (List Element)) = some items := h
    injection h2 with h3
    subst h3
    rfl

/-- In the multi-security branch, every entry of the accumulated reference
results dict either predates the loop or is the keyed Per-Security Result of
one of the iterated items. -/
theorem refLoop_multi_entries (total : Nat) (ht : 1 < total) (items : List Element) :
    ∀ (sec0 : Option String) (acc : Dict) (secF : Option String) (resF : Dict),
      refLoop items total sec0 acc = .ok (secF, resF) →
      ∀ p ∈ resF, p ∈ acc ∨ ∃ item ∈ items, ∃ s rec,
        refItemRecord item = .ok (s, rec) ∧ p = (SVal.s s, BVal.dict rec) := by
  induction items with
  | nil =>
    intro sec0 acc secF resF hok p hp
    have h0 : refLoop [] total sec0 acc = .ok (sec0, acc) := rfl
    rw [h0] at hok
    injection hok with h1
    injection h1 with h2 h3
    subst h3
    exact Or.inl hp
  | cons item rest ih =>
    intro sec0 acc secF resF hok p hp
    have h0 : refLoop (item :: rest) total sec0 acc
        = match refItemRecord item with
          | .error e => .error e
          | .ok (sec, rec) => refLoop rest total (some sec)
              (if total > 1 then dictSet acc (.s sec) (.dict rec) else rec) := rfl
    rw [h0] at hok
    cases hri : refItemRecord item with
    | error e => rw [hri] at hok; cases hok
    | ok q =>
      obtain ⟨s2, rec⟩ := q
      rw [hri] at hok
      have hok2 : refLoop rest total (some s2)
          (if total > 1 then dictSet acc (.s s2) (.dict rec) else rec)
          = .ok (secF, resF) := hok
      rw [if_pos ht] at hok2
      rcases ih (some s2) (dictSet acc (.s s2) (.dict rec)) secF resF hok2 p hp with hL | hR
      · rcases mem_of_mem_dictSet _ _ _ _ hL with h1 | h1
        · exact Or.inl h1
        · exact Or.inr ⟨item, List.mem_cons_self _ _, s2, rec, hri, h1⟩
      · obtain ⟨it2, hmem, s3, rec3, hr3, hp3⟩ := hR
        exact Or.inr ⟨it2, List.mem_cons_of_mem _ hmem, s3, rec3, hr3, hp3⟩

/-- C3: the reference decoder's output shape depends only on the cardinality
of the security-data collection — with more than one entry it returns
`(None, mapping from security id to Per-Security Result)`, and with exactly
one entry it returns `(security id, Per-Security Result)` in flat shape. -/
theorem ref_decoder_shape_by_cardinality (msg : Msg) (sd : Element) (items : List Element)
    (hre : msg.getElement "responseError" = Option.none)
    (hsd : msg.getElement "securityData" = some sd)
    (hit : getBbgIterator sd = some items)
    (res : Option String × BVal) (hok : processRefDataMsg msg = .ok res) :
    (1 < items.length → res.1 = Option.none ∧ ∃ d : Dict, res.2 = .dict d ∧
        ∀ p ∈ d, ∃ item ∈ items, ∃ s rec, refItemRecord item = .ok (s, rec) ∧
          p = (SVal.s s, BVal.dict rec)) ∧
    (items.length = 1 → ∃ item s rec, items = [item] ∧ refItemRecord item = .ok (s, rec) ∧
        res = (some s, .dict rec)) := by
  have hlen := getIteratorLen_of_iterator sd items hit
  have h0 : processRefDataMsg msg
      = match msg.getElement "responseError" with
        | some re =>
          match responseErrorFactory re with
          | .error e => .error e
          | .ok d => .ok (Option.none, .dict d)
        | Option.none =>
          match msg.getElement "securityData" with
          | Option.none => .error .notFound
          | some securityData =>
            match getBbgIterator securityData, getIteratorLen securityData with
            | some items2, some len =>
              match refLoop items2 len Option.none [] with
              | .error e => .error e
              | .ok (sec, results) =>
                if len > 1 then .ok (Option.none, .dict results)
                else .ok (sec, .dict results)
            | _, _ => .error .typeError := rfl
  have h0b : processRefDataMsg msg
      = match getBbgIterator sd, getIteratorLen sd with
        | some items2, some len =>
          match refLoop items2 len Option.none [] with
          | .error e => .error e
          | .ok (sec, results) =>
            if len > 1 then .ok (Option.none, .dict results)
            else .ok (sec, .dict results)
        | _, _ => .error .typeError := by
    rw [h0, hre, hsd]
  have h1 : processRefDataMsg msg
      = match refLoop items items.length Option.none [] with
        | .error e => .error e
        | .ok (sec, results) =>
          if items.length > 1 then .ok (Option.none, .dict results)
          else .ok (sec, .dict results) := by
    rw [h0b, hit, hlen]
  cases hRL : refLoop items items.length Option.none [] with
  | error e =>
    have h2 : processRefDataMsg msg = .error e := by rw [h1, hRL]
    rw [h2] at hok
    cases hok
  | ok q =>
    obtain ⟨sec, results⟩ := q
    have h2 : processRefDataMsg msg
        = if items.length > 1 then .ok (Option.none, .dict results)
          else .ok (sec, .dict results) := by rw [h1, hRL]
    rw [h2] at hok
    constructor
    · intro hlt
      rw [if_pos hlt] at hok
      injection hok with h3
      rw [← h3]
      refine ⟨rfl, results, rfl, ?_⟩
      intro p hp
      rcases refLoop_multi_entries items.length hlt items Option.none [] sec results hRL p hp
        with hL | hR
      · cases hL
      · exact hR
    · intro heq
      rw [if_neg (by rw [heq]; exact Nat.lt_irrefl 1)] at hok
      obtain ⟨item, hitem⟩ := List.length_eq_one.mp heq
      subst hitem
      have h4 : refLoop [item] ([item] : List Element).length Option.none []
          = match refItemRecord item with
            | .error e => .error e
            | .ok (sec2, rec) => .ok (some sec2, rec) := rfl
      rw [h4] at hRL
      cases hri : refItemRecord item with
      | error e => rw [hri] at hRL; cases hRL
      | ok q2 =>
        obtain ⟨s2, rec⟩ := q2
        rw [hri] at hRL
        have hRL2 : (Except.ok (some s2, rec) : Except PyExc (Option String × Dict))
            = .ok (sec, results) := hRL
        injection hRL2 with h5
        injection h5 with h6 h7
        subst h6
        subst h7
        injection hok with h8
        exact ⟨item, s2, rec, rfl, hri, h8.symm⟩

/-- Witness for C3: a two-security message decodes to the nested shape with a
`None` identifier, and a one-security message decodes to the flat shape with
the security's identifier. -/
theorem ref_decoder_shape_by_cardinality_witness :
    processRefDataMsg refMsg2 = .ok (Option.none, .dict refOut2) ∧
    processRefDataMsg refMsg1 = .ok (some "AAPL US Equity", .dict refRec1) := by
  have hmulti := (ref_decoder_shape_by_cardinality refMsg2 refSd2 [refItem1, refItem2]
    rfl rfl rfl (Option.none, .dict refOut2) rfl).1 (by decide)
  have hsingle := (ref_decoder_shape_by_cardinality refMsg1 refSd1 [refItem1]
    rfl rfl rfl (some "AAPL US Equity", .dict refRec1) rfl).2 rfl
  exact ⟨rfl, rfl⟩

/-- Witness for C4 amended: two same-named composite children decode to the
two distinct keys `ovr` and `ovr_0`. -/
theorem element_factory_two_composite_children_witness :
    elementFactoryTop dupCompositeElem
      = .ok [(.s "blk", .dict [(.s "ovr", .dict [(.s "a", .sv (.i 1))]),
                               (.s "ovr_0", .dict [(.s "b", .sv (.i 2))])])] ∧
    "ovr" ≠ "ovr_0" := by
  have h := element_factory_two_composite_children "blk" "ovr" ovrChild1 ovrChild2
    (by decide) (by decide) rfl rfl
    [(.s "blk", .dict [(.s "ovr", .dict [(.s "a", .sv (.i 1))]),
                       (.s "ovr_0", .dict [(.s "b", .sv (.i 2))])])] rfl
  exact ⟨rfl, by decide⟩

/-- Witness for C9 at a concrete override mapping. -/
theorem format_override_non_curve_date_is_none_witness :
    formatOverride "PX_LAST" (.i 1) = .ok SVal.none ∧
    ("BID", SVal.none) ∈ [("BID", SVal.none), ("CURVE_DATE", SVal.s "20230101")] :=
  ⟨format_override_non_curve_date_is_none.1 "PX_LAST" (.i 1) (by decide),
   format_override_non_curve_date_is_none.2.2
     [("BID", SVal.i 7), ("CURVE_DATE", SVal.date 2023 1 1)]
     [("BID", SVal.none), ("CURVE_DATE", SVal.s "20230101")]
     "BID" (.i 7) rfl (List.mem_cons_self _ _) (by decide)⟩

end Bbg
